import Mathlib

/-!
Shallow embedding of the math-plotter repository (src/src/App.vue).

The whole program is the plotGraph handler in App.vue together with the
small helpers around it (getLineColor, the lineColors palette, the
expression rows).  JavaScript numbers are modelled as exact rationals,
the mathjs collaborator (math.compile / compiledExpr.evaluate) is
modelled as an explicit engine parameter whose compile step either
throws (Except.error with the thrown message) or returns an evaluable
closure, and the closure at each point either throws or returns a
JavaScript value classified exactly the way line 155 of App.vue
classifies it: a finite number, a non-finite number (Infinity or NaN),
or a value that is not a number at all (complex value, boolean, string,
object).  The component state touched by plotGraph (errorMessage,
loading, chartInstance) is threaded explicitly as a UIState record.
-/

namespace MathPlotter

/-- Result of compiledExpr.evaluate on the JavaScript side, classified the
way App.vue line 155 classifies it: a finite number, a number that is not
finite (Infinity or NaN), or a non-number value (complex, boolean, string,
unit object, and so on). -/
inductive JSValue where
  | finiteNum (q : ℚ)
  | nonFiniteNum
  | other
deriving DecidableEq, Repr

/-- One expression row of the form component: stable id plus the text the
user typed (App.vue line 79: objects with fields id and value). -/
structure ExprEntry where
  id : Nat
  value : String
deriving DecidableEq, Repr

/-- The mathjs collaborator created on App.vue line 89.  compile either
throws (error with the thrown message, caught on line 145) or returns an
evaluable closure; evaluating the closure with scope x (line 154) either
throws (error with the thrown message, caught on line 156) or returns a
JavaScript value. -/
structure MathEngine where
  compile : String → Except String (ℚ → Except String JSValue)

/-- The distinct error states plotGraph can surface through errorMessage.
Each constructor carries exactly the data the corresponding template
string in App.vue interpolates: the parse error (line 146) carries the
offending expression text and the thrown message, the eval error
(line 157) additionally carries the domain value x. -/
inductive PlotError where
  | emptyInput
  | rangeError
  | sampleCountError
  | parseError (expr : String) (msg : String)
  | evalError (expr : String) (x : ℚ) (msg : String)
  | noValidExpressions
deriving DecidableEq, Repr

/-- One Chart.js dataset as assembled on App.vue lines 162-170.  data
holds the yValues list where none is the null pushed for a non-finite or
non-number result. -/
structure Dataset where
  label : String
  data : List (Option ℚ)
  borderColor : String
  tension : ℚ
  fill : Bool
  pointRadius : ℚ
  pointHoverRadius : ℚ
deriving DecidableEq, Repr

/-- The chart created on App.vue line 186: the domain labels (kept here as
the raw x values; the code formats each with toFixed(2)) and the datasets.
-/
structure ChartData where
  labels : List ℚ
  datasets : List Dataset
deriving DecidableEq, Repr

/-- The component state plotGraph reads and writes: the chartInstance
reference (none models the null chart), the surfaced errorMessage (none
models the empty string) and the loading flag. -/
structure UIState where
  chartInstance : Option ChartData
  errorMessage : Option PlotError
  loading : Bool
deriving DecidableEq, Repr

/-- The fixed palette on App.vue lines 91-99. -/
def lineColors : List String :=
  [ "rgb(75, 192, 192)"
  , "rgb(255, 99, 132)"
  , "rgb(54, 162, 235)"
  , "rgb(255, 206, 86)"
  , "rgb(153, 102, 255)"
  , "rgb(255, 159, 64)"
  , "rgb(201, 203, 207)"
  ]

/-- App.vue line 101: cycle the palette by index modulo its length. -/
def getLineColor (index : Nat) : String :=
  lineColors.getD (index % lineColors.length) ""

/-- The blankness test used on lines 114 and 140: the JavaScript
expression not expr.value.trim() is true exactly when trimming leaves the
empty string, that is when every character of the text is whitespace.
The test is stated over the character list so that it computes. -/
def blankText (s : String) : Bool :=
  s.data.all (fun c => c.isWhitespace)

/-- The regular expression test on line 168: value.match of the character
class x or X, true exactly when some character of the text is a lowercase
x or an uppercase X. -/
def matchesXChar (s : String) : Bool :=
  s.data.any (fun c => c = 'x' || c = 'X')

/-- The sampled domain points of App.vue lines 131-135: step is
(maxX - minX) / (numPoints - 1) and the i-th point is minX + i * step for
i below numPoints. -/
def xValuesOf (minX maxX : ℚ) (numPoints : ℤ) : List ℚ :=
  let step : ℚ := (maxX - minX) / ((numPoints : ℚ) - 1)
  (List.range numPoints.toNat).map (fun i : ℕ => minX + (i : ℚ) * step)

/-- The inner sampling loop of App.vue lines 151-161 for one compiled
expression: evaluate at each x in order; a thrown evaluation error aborts
with an evalError carrying the expression text and the domain value;
otherwise push the value if it is a finite number and null otherwise. -/
def sampleYValues (evalFn : ℚ → Except String JSValue) (exprText : String) :
    List ℚ → Except PlotError (List (Option ℚ))
  | [] => .ok []
  | x :: rest =>
    match evalFn x with
    | .error msg => .error (.evalError exprText x msg)
    | .ok y =>
      let sample : Option ℚ :=
        match y with
        | .finiteNum q => some q
        | .nonFiniteNum => none
        | .other => none
      match sampleYValues evalFn exprText rest with
      | .error e => .error e
      | .ok ys => .ok (sample :: ys)

/-- The dataset-building loop of App.vue lines 137-171: walk the full
expression list with its running index i (the index keeps counting over
blank rows, which are skipped by the continue on line 140), compile each
non-blank text (a throw aborts with a parseError), sample it over xValues
(a throw aborts with an evalError), and assemble the Chart.js dataset of
lines 162-170. -/
def buildDatasets (math : MathEngine) (xValues : List ℚ) :
    List ExprEntry → Nat → Except PlotError (List Dataset)
  | [], _ => .ok []
  | currentExpression :: rest, i =>
    if blankText currentExpression.value then
      buildDatasets math xValues rest (i + 1)
    else
      match math.compile currentExpression.value with
      | .error msg => .error (.parseError currentExpression.value msg)
      | .ok compiledExpr =>
        match sampleYValues compiledExpr currentExpression.value xValues with
        | .error e => .error e
        | .ok yValues =>
          match buildDatasets math xValues rest (i + 1) with
          | .error e => .error e
          | .ok ds =>
            .ok ({ label := "y = " ++ currentExpression.value
                 , data := yValues
                 , borderColor := getLineColor i
                 , tension := 1 / 10
                 , fill := false
                 , pointRadius := if matchesXChar currentExpression.value then 0 else 3
                 , pointHoverRadius := 5 } :: ds)

/-- The plotGraph handler, App.vue lines 113-209.  Validation order as in
the source: the all-blank check (line 114), the null-or-inverted range
check (line 118, with the same left-to-right short-circuit as the
JavaScript disjunction), the sample-count bounds check (line 122).  After
validation the message is cleared and loading set, the domain is sampled,
the datasets are built; a parse or eval error stores the error and stops
with the chart untouched; an empty dataset list stores
noValidExpressions and destroys the chart (lines 173-181); otherwise the
previous chart is destroyed and replaced by the new one (lines 183-207).
-/
def plotGraph (math : MathEngine) (expressions : List ExprEntry)
    (minX maxX : Option ℚ) (numPoints : ℤ) (ui : UIState) : UIState :=
  if expressions.all (fun expr => blankText expr.value) then
    { ui with errorMessage := some .emptyInput }
  else
    match minX, maxX with
    | none, _ => { ui with errorMessage := some .rangeError }
    | some _, none => { ui with errorMessage := some .rangeError }
    | some mn, some mx =>
      if mn ≥ mx then { ui with errorMessage := some .rangeError }
      else if numPoints < 2 ∨ numPoints > 1000 then
        { ui with errorMessage := some .sampleCountError }
      else
        let xValues := xValuesOf mn mx numPoints
        match buildDatasets math xValues expressions 0 with
        | .error e =>
          { ui with errorMessage := some e, loading := false }
        | .ok datasets =>
          if datasets.isEmpty then
            { ui with errorMessage := some .noValidExpressions
                    , chartInstance := none
                    , loading := false }
          else
            { ui with errorMessage := none
                    , chartInstance := some { labels := xValues, datasets := datasets }
                    , loading := false }

/-- The non-blank texts of an entry list, in input order: the curves the
loop actually plots. -/
def nonBlankTexts (entries : List ExprEntry) : List String :=
  (entries.filter (fun e => !blankText e.value)).map (fun e => e.value)

/-- The positions, counted in the full entry list starting at i, of the
non-blank entries: the indices the loop on line 138 hands to getLineColor.
-/
def nonBlankPositions : List ExprEntry → Nat → List Nat
  | [], _ => []
  | e :: rest, i =>
    if blankText e.value then nonBlankPositions rest (i + 1)
    else i :: nonBlankPositions rest (i + 1)

/-- A concrete mathjs engine used to exercise the pipeline, reproducing
mathjs behaviour on a handful of fixed inputs: the identity function x, a
constant, a constant followed by a mathjs comment containing a capital X,
the reciprocal (which overflows to Infinity at 0), a boolean-valued
comparison (mathjs returns a boolean, not a number), an unknown function
that compiles but throws on evaluation, and a truncated expression that
throws at parse time. -/
def demoEngine : MathEngine where
  compile s :=
    if s = "x" then .ok (fun q => .ok (.finiteNum q))
    else if s = "5" then .ok (fun _ => .ok (.finiteNum 5))
    else if s = "2 # X" then .ok (fun _ => .ok (.finiteNum 2))
    else if s = "1/x" then
      .ok (fun q => if q = 0 then .ok .nonFiniteNum else .ok (.finiteNum (1 / q)))
    else if s = "x < 5" then .ok (fun _ => .ok .other)
    else if s = "foo(x)" then .ok (fun _ => .error "Undefined function foo")
    else .error "Unexpected end of expression"

/-- The initial component state: no chart, empty message, not loading. -/
def uiInit : UIState := { chartInstance := none, errorMessage := none, loading := false }

/-! Helper lemmas about the sampling loop. -/

lemma sampleYValues_append (f : ℚ → Except String JSValue) (t : String)
    (as bs : List ℚ) :
    sampleYValues f t (as ++ bs)
      = (sampleYValues f t as).bind
          (fun ys => (sampleYValues f t bs).map (fun zs => ys ++ zs)) := by
  induction as with
  | nil =>
    cases hb : sampleYValues f t bs <;>
      simp [sampleYValues, Except.bind, Except.map, hb]
  | cons x rest ih =>
    simp only [List.cons_append, sampleYValues, List.append_eq]
    cases hx : f x with
    | error msg => simp [Except.bind]
    | ok y =>
      rw [ih]
      cases hr : sampleYValues f t rest <;>
        cases hb : sampleYValues f t bs <;>
          simp [Except.bind, Except.map]

lemma sampleYValues_error_shape (f : ℚ → Except String JSValue) (t : String)
    (xs : List ℚ) (e : PlotError)
    (h : sampleYValues f t xs = .error e) :
    ∃ x ∈ xs, ∃ msg, e = .evalError t x msg ∧ f x = .error msg := by
  induction xs with
  | nil => simp [sampleYValues] at h
  | cons x rest ih =>
    rw [sampleYValues] at h
    cases hx : f x with
    | error msg =>
      rw [hx] at h
      exact ⟨x, by simp, msg, by injection h with h2; exact h2.symm, hx⟩
    | ok y =>
      rw [hx] at h
      cases hr : sampleYValues f t rest with
      | error e2 =>
        rw [hr] at h
        injection h with h2
        obtain ⟨x2, hx2, msg, hmsg, hfx⟩ := ih (h2 ▸ hr)
        exact ⟨x2, by simp [hx2], msg, hmsg, hfx⟩
      | ok ys => rw [hr] at h; simp at h

lemma sampleYValues_ok_no_throw (f : ℚ → Except String JSValue) (t : String)
    (xs : List ℚ) (ys : List (Option ℚ))
    (h : sampleYValues f t xs = .ok ys) :
    ∀ x ∈ xs, ∀ msg, f x ≠ .error msg := by
  induction xs generalizing ys with
  | nil => simp
  | cons x rest ih =>
    rw [sampleYValues] at h
    cases hx : f x with
    | error msg => rw [hx] at h; simp at h
    | ok y =>
      rw [hx] at h
      cases hr : sampleYValues f t rest with
      | error e2 => rw [hr] at h; simp at h
      | ok zs =>
        intro x2 hx2 msg hfx
        rcases List.mem_cons.mp hx2 with h1 | h1
        · rw [h1, hx] at hfx; cases hfx
        · exact ih zs hr x2 h1 msg hfx

lemma sampleYValues_ok_of_total (f : ℚ → Except String JSValue) (t : String)
    (xs : List ℚ)
    (h : ∀ x ∈ xs, ∃ v, f x = .ok v) :
    ∃ ys, sampleYValues f t xs = .ok ys := by
  induction xs with
  | nil => exact ⟨[], rfl⟩
  | cons x rest ih =>
    obtain ⟨v, hv⟩ := h x (by simp)
    obtain ⟨ys, hys⟩ := ih (fun x2 hx2 => h x2 (by simp [hx2]))
    exact ⟨_, by rw [sampleYValues, hv, hys]⟩

/-! Helper lemmas about the dataset-building loop. -/

lemma buildDatasets_error_shape (math : MathEngine) (xs : List ℚ)
    (entries : List ExprEntry) (i : Nat) (e : PlotError)
    (h : buildDatasets math xs entries i = .error e) :
    (∃ t msg, e = .parseError t msg ∧ t ∈ nonBlankTexts entries
      ∧ math.compile t = .error msg)
    ∨ (∃ t x msg, e = .evalError t x msg ∧ t ∈ nonBlankTexts entries ∧ x ∈ xs
      ∧ ∃ c, math.compile t = .ok c ∧ c x = .error msg) := by
  induction entries generalizing i with
  | nil => simp [buildDatasets] at h
  | cons en rest ih =>
    have hsub :
        ∀ t, t ∈ nonBlankTexts rest → t ∈ nonBlankTexts (en :: rest) := by
      intro t ht
      simp only [nonBlankTexts, List.map_eq_map, List.mem_map, List.mem_filter] at ht ⊢
      obtain ⟨e2, ⟨hmem2, hnb2⟩, hval⟩ := ht
      exact ⟨e2, ⟨by simp [hmem2], hnb2⟩, hval⟩
    rw [buildDatasets] at h
    split at h
    · rcases ih (i + 1) h with ⟨t, msg, he, ht, hct⟩ | ⟨t, x, msg, he, ht, hx, hct⟩
      · exact Or.inl ⟨t, msg, he, hsub t ht, hct⟩
      · exact Or.inr ⟨t, x, msg, he, hsub t ht, hx, hct⟩
    · rename_i hb
      have hmem : en.value ∈ nonBlankTexts (en :: rest) := by
        simp only [nonBlankTexts, List.map_eq_map, List.mem_map, List.mem_filter]
        exact ⟨en, ⟨by simp, by simp [Bool.not_eq_true'] at hb ⊢; exact hb⟩, rfl⟩
      split at h
      · rename_i msg hc
        injection h with h2
        exact Or.inl ⟨en.value, msg, h2.symm, hmem, hc⟩
      · rename_i c hc
        split at h
        · rename_i e2 hs
          injection h with h2
          obtain ⟨x, hx, msg, hmsg, hfx⟩ :=
            sampleYValues_error_shape c en.value xs e2 hs
          exact Or.inr ⟨en.value, x, msg, h2 ▸ hmsg, hmem, hx, c, hc, hfx⟩
        · rename_i ys hs
          split at h
          · rename_i e2 hr
            injection h with h2
            rcases ih (i + 1) (h2 ▸ hr) with
              ⟨t, msg, he, ht, hct⟩ | ⟨t, x, msg, he, ht, hx, hct⟩
            · exact Or.inl ⟨t, msg, he, hsub t ht, hct⟩
            · exact Or.inr ⟨t, x, msg, he, hsub t ht, hx, hct⟩
          · simp at h

lemma nonBlankTexts_nil : nonBlankTexts [] = [] := rfl

lemma nonBlankTexts_cons (en : ExprEntry) (rest : List ExprEntry) :
    nonBlankTexts (en :: rest)
      = if blankText en.value then nonBlankTexts rest
        else en.value :: nonBlankTexts rest := by
  cases hb : blankText en.value <;> simp [nonBlankTexts, List.filter, hb]

lemma buildDatasets_labels (math : MathEngine) (xs : List ℚ)
    (entries : List ExprEntry) (i : Nat) (ds : List Dataset)
    (h : buildDatasets math xs entries i = .ok ds) :
    ds.map Dataset.label = (nonBlankTexts entries).map (fun t => "y = " ++ t) := by
  induction entries generalizing i ds with
  | nil =>
    rw [buildDatasets] at h
    injection h with h2
    simp [← h2, nonBlankTexts]
  | cons en rest ih =>
    rw [buildDatasets] at h
    rw [nonBlankTexts_cons]
    split at h
    · rename_i hb
      rw [if_pos hb]
      exact ih _ _ h
    · rename_i hb
      rw [if_neg hb]
      split at h
      · simp at h
      · split at h
        · simp at h
        · split at h
          · simp at h
          · rename_i ds2 hr
            injection h with h2
            simp [← h2, ih _ _ hr]

lemma buildDatasets_colors (math : MathEngine) (xs : List ℚ)
    (entries : List ExprEntry) (i : Nat) (ds : List Dataset)
    (h : buildDatasets math xs entries i = .ok ds) :
    ds.map Dataset.borderColor = (nonBlankPositions entries i).map getLineColor := by
  induction entries generalizing i ds with
  | nil =>
    rw [buildDatasets] at h
    injection h with h2
    simp [← h2, nonBlankPositions]
  | cons en rest ih =>
    rw [buildDatasets] at h
    rw [nonBlankPositions]
    split at h
    · rename_i hb
      rw [if_pos hb]
      exact ih _ _ h
    · rename_i hb
      rw [if_neg hb]
      split at h
      · simp at h
      · split at h
        · simp at h
        · split at h
          · simp at h
          · rename_i ds2 hr
            injection h with h2
            simp [← h2, ih _ _ hr]

lemma buildDatasets_radii (math : MathEngine) (xs : List ℚ)
    (entries : List ExprEntry) (i : Nat) (ds : List Dataset)
    (h : buildDatasets math xs entries i = .ok ds) :
    ds.map Dataset.pointRadius
      = (nonBlankTexts entries).map
          (fun t => if matchesXChar t then (0 : ℚ) else 3) := by
  induction entries generalizing i ds with
  | nil =>
    rw [buildDatasets] at h
    injection h with h2
    simp [← h2, nonBlankTexts]
  | cons en rest ih =>
    rw [buildDatasets] at h
    rw [nonBlankTexts_cons]
    split at h
    · rename_i hb
      rw [if_pos hb]
      exact ih _ _ h
    · rename_i hb
      rw [if_neg hb]
      split at h
      · simp at h
      · split at h
        · simp at h
        · split at h
          · simp at h
          · rename_i ds2 hr
            injection h with h2
            simp [← h2, ih _ _ hr]

lemma buildDatasets_ok_of_sound (math : MathEngine) (xs : List ℚ)
    (entries : List ExprEntry) (i : Nat)
    (h : ∀ en ∈ entries, blankText en.value = false →
      ∃ c, math.compile en.value = .ok c ∧ ∀ x ∈ xs, ∃ v, c x = .ok v) :
    ∃ ds, buildDatasets math xs entries i = .ok ds := by
  induction entries generalizing i with
  | nil => exact ⟨[], rfl⟩
  | cons en rest ih =>
    have hrest : ∀ en2 ∈ rest, blankText en2.value = false →
        ∃ c, math.compile en2.value = .ok c ∧ ∀ x ∈ xs, ∃ v, c x = .ok v := by
      intro en2 hm hb
      exact h en2 (List.mem_cons_of_mem _ hm) hb
    obtain ⟨ds2, hds2⟩ := ih (i + 1) hrest
    cases hb : blankText en.value with
    | true => exact ⟨ds2, by simp [buildDatasets, hb, hds2]⟩
    | false =>
      obtain ⟨c, hc, heval⟩ := h en (by simp) hb
      obtain ⟨ys, hys⟩ := sampleYValues_ok_of_total c en.value xs heval
      refine ⟨{ label := "y = " ++ en.value, data := ys, borderColor := getLineColor i
              , tension := 1 / 10, fill := false
              , pointRadius := if matchesXChar en.value then 0 else 3
              , pointHoverRadius := 5 } :: ds2, ?_⟩
      simp [buildDatasets, hb, hc, hys, hds2]

lemma buildDatasets_error_of_fail (math : MathEngine) (xs : List ℚ)
    (entries : List ExprEntry) (i : Nat)
    (hfail : ∃ en ∈ entries, blankText en.value = false ∧
      ((∃ msg, math.compile en.value = .error msg)
       ∨ (∃ c, math.compile en.value = .ok c
           ∧ ∃ x ∈ xs, ∃ msg, c x = .error msg))) :
    ∃ e, buildDatasets math xs entries i = .error e := by
  induction entries generalizing i with
  | nil => simp at hfail
  | cons en rest ih =>
    obtain ⟨en2, hmem, hnb, hbad⟩ := hfail
    rcases List.mem_cons.mp hmem with hhead | htail
    · subst hhead
      cases hb : blankText en2.value with
      | true => rw [hb] at hnb; cases hnb
      | false =>
        rcases hbad with ⟨msg, hc⟩ | ⟨c, hc, x, hx, msg, hcx⟩
        · exact ⟨.parseError en2.value msg, by simp [buildDatasets, hb, hc]⟩
        · cases hs : sampleYValues c en2.value xs with
          | error e =>
            exact ⟨e, by simp [buildDatasets, hb, hc, hs]⟩
          | ok ys =>
            exact absurd hcx (sampleYValues_ok_no_throw c en2.value xs ys hs x hx msg)
    · obtain ⟨e, he⟩ := ih (i + 1) ⟨en2, htail, hnb, hbad⟩
      cases hb : blankText en.value with
      | true => exact ⟨e, by simp [buildDatasets, hb, he]⟩
      | false =>
        cases hc : math.compile en.value with
        | error msg => exact ⟨.parseError en.value msg, by simp [buildDatasets, hb, hc]⟩
        | ok c =>
          cases hs : sampleYValues c en.value xs with
          | error e2 =>
            exact ⟨e2, by simp [buildDatasets, hb, hc, hs]⟩
          | ok ys =>
            exact ⟨e, by simp [buildDatasets, hb, hc, hs, he]⟩

/-! Helper lemmas about the plotGraph handler itself. -/

lemma allBlank_eq_false (entries : List ExprEntry)
    (h : ∃ en ∈ entries, blankText en.value = false) :
    entries.all (fun expr => blankText expr.value) = false := by
  obtain ⟨en, hmem, hnb⟩ := h
  cases hall : entries.all (fun expr => blankText expr.value) with
  | false => rfl
  | true =>
    rw [List.all_eq_true] at hall
    rw [hall en hmem] at hnb
    cases hnb

lemma plotGraph_eq_build (math : MathEngine) (entries : List ExprEntry)
    (mn mx : ℚ) (n : ℤ) (ui : UIState)
    (hne : ∃ en ∈ entries, blankText en.value = false)
    (hmn : mn < mx) (h2 : 2 ≤ n) (h3 : n ≤ 1000) :
    plotGraph math entries (some mn) (some mx) n ui
      = match buildDatasets math (xValuesOf mn mx n) entries 0 with
        | .error e => { ui with errorMessage := some e, loading := false }
        | .ok datasets =>
          if datasets.isEmpty then
            { ui with errorMessage := some .noValidExpressions
                    , chartInstance := none
                    , loading := false }
          else
            { ui with errorMessage := none
                    , chartInstance := some { labels := xValuesOf mn mx n
                                            , datasets := datasets }
                    , loading := false } := by
  unfold plotGraph
  rw [allBlank_eq_false entries hne]
  simp only [Bool.false_eq_true, if_false]
  rw [if_neg (by exact not_le.mpr hmn), if_neg (by omega)]

lemma exists_nonblank_of_all_false (entries : List ExprEntry)
    (h : entries.all (fun expr => blankText expr.value) = false) :
    ∃ en ∈ entries, blankText en.value = false := by
  by_contra hc
  push_neg at hc
  have : entries.all (fun expr => blankText expr.value) = true := by
    rw [List.all_eq_true]
    intro en hmem
    have := hc en hmem
    cases hb : blankText en.value with
    | true => rfl
    | false => exact absurd hb this
  rw [this] at h
  cases h

lemma plotGraph_allBlank (math : MathEngine) (entries : List ExprEntry)
    (minX maxX : Option ℚ) (n : ℤ) (ui : UIState)
    (hall : entries.all (fun expr => blankText expr.value) = true) :
    plotGraph math entries minX maxX n ui
      = { ui with errorMessage := some .emptyInput } := by
  unfold plotGraph
  rw [hall]
  simp

lemma plotGraph_minNone (math : MathEngine) (entries : List ExprEntry)
    (maxX : Option ℚ) (n : ℤ) (ui : UIState)
    (hall : entries.all (fun expr => blankText expr.value) = false) :
    plotGraph math entries none maxX n ui
      = { ui with errorMessage := some .rangeError } := by
  unfold plotGraph
  rw [hall]
  simp

lemma plotGraph_maxNone (math : MathEngine) (entries : List ExprEntry)
    (a : ℚ) (n : ℤ) (ui : UIState)
    (hall : entries.all (fun expr => blankText expr.value) = false) :
    plotGraph math entries (some a) none n ui
      = { ui with errorMessage := some .rangeError } := by
  unfold plotGraph
  rw [hall]
  simp

lemma plotGraph_inverted (math : MathEngine) (entries : List ExprEntry)
    (a b : ℚ) (n : ℤ) (ui : UIState)
    (hall : entries.all (fun expr => blankText expr.value) = false)
    (hge : a ≥ b) :
    plotGraph math entries (some a) (some b) n ui
      = { ui with errorMessage := some .rangeError } := by
  unfold plotGraph
  rw [hall]
  simp [hge]

lemma plotGraph_badCount (math : MathEngine) (entries : List ExprEntry)
    (a b : ℚ) (n : ℤ) (ui : UIState)
    (hall : entries.all (fun expr => blankText expr.value) = false)
    (hlt : a < b) (hcount : n < 2 ∨ n > 1000) :
    plotGraph math entries (some a) (some b) n ui
      = { ui with errorMessage := some .sampleCountError } := by
  unfold plotGraph
  rw [hall]
  simp only [Bool.false_eq_true, if_false]
  rw [if_neg (not_le.mpr hlt), if_pos hcount]

lemma plotGraph_success_inv (math : MathEngine) (entries : List ExprEntry)
    (minX maxX : Option ℚ) (n : ℤ) (ui : UIState)
    (h : (plotGraph math entries minX maxX n ui).errorMessage = none) :
    ∃ a b ds, minX = some a ∧ maxX = some b
      ∧ buildDatasets math (xValuesOf a b n) entries 0 = .ok ds
      ∧ ds ≠ []
      ∧ (plotGraph math entries minX maxX n ui).chartInstance
          = some { labels := xValuesOf a b n, datasets := ds } := by
  cases hall : entries.all (fun expr => blankText expr.value) with
  | true => rw [plotGraph_allBlank math entries minX maxX n ui hall] at h; simp at h
  | false =>
    cases minX with
    | none => rw [plotGraph_minNone math entries maxX n ui hall] at h; simp at h
    | some a =>
      cases maxX with
      | none => rw [plotGraph_maxNone math entries a n ui hall] at h; simp at h
      | some b =>
        by_cases hge : a ≥ b
        · rw [plotGraph_inverted math entries a b n ui hall hge] at h
          simp at h
        · have hlt : a < b := not_le.mp hge
          by_cases hcount : n < 2 ∨ n > 1000
          · rw [plotGraph_badCount math entries a b n ui hall hlt hcount] at h
            simp at h
          · have heq := plotGraph_eq_build math entries a b n ui
              (exists_nonblank_of_all_false entries hall) hlt (by omega) (by omega)
            rw [heq] at h ⊢
            cases hds : buildDatasets math (xValuesOf a b n) entries 0 with
            | error e => rw [hds] at h; simp at h
            | ok ds =>
              simp only [hds] at h ⊢
              cases hemp : ds.isEmpty with
              | true => rw [hemp] at h; simp at h
              | false =>
                have hne : ds ≠ [] := by
                  intro hnil
                  rw [hnil] at hemp
                  simp at hemp
                simp only [hemp, Bool.false_eq_true, if_false]
                exact ⟨a, b, ds, rfl, rfl, hds, hne, rfl⟩

/-! Claim C1. -/

/-- C1: for every valid input with minX < maxX and sampleCount in the
interval from 2 to 1000, the sampler produces exactly sampleCount domain
points with the i-th point equal to minX + i * step for
step = (maxX - minX) / (sampleCount - 1), evenly spaced, the first point
equal to minX and the last point equal to maxX (exactly, in the rational
model of JavaScript numbers). -/
theorem sampler_produces_evenly_spaced_points (mn mx : ℚ) (n : ℤ)
    (hlt : mn < mx) (h2 : 2 ≤ n) (h3 : n ≤ 1000) :
    ((xValuesOf mn mx n).length : ℤ) = n
    ∧ (∀ i : Nat, i < (xValuesOf mn mx n).length →
        (xValuesOf mn mx n).getD i 0
          = mn + (i : ℚ) * ((mx - mn) / ((n : ℚ) - 1)))
    ∧ (xValuesOf mn mx n).getD 0 0 = mn
    ∧ (xValuesOf mn mx n).getD ((xValuesOf mn mx n).length - 1) 0 = mx
    ∧ (∀ i : Nat, i + 1 < (xValuesOf mn mx n).length →
        (xValuesOf mn mx n).getD (i + 1) 0 - (xValuesOf mn mx n).getD i 0
          = (mx - mn) / ((n : ℚ) - 1)) := by
  have hlen : (xValuesOf mn mx n).length = n.toNat := by
    simp only [xValuesOf, List.length_map, List.length_range]
  have hform : ∀ i : Nat, i < (xValuesOf mn mx n).length →
      (xValuesOf mn mx n).getD i 0
        = mn + (i : ℚ) * ((mx - mn) / ((n : ℚ) - 1)) := by
    intro i hi
    rw [List.getD_eq_getElem _ _ hi]
    simp only [xValuesOf, List.getElem_map, List.getElem_range]
  have hn2 : 2 ≤ n.toNat := by omega
  have hcastn : ((n.toNat : ℚ)) = (n : ℚ) := by
    have := Int.toNat_of_nonneg (show (0 : ℤ) ≤ n by omega)
    exact_mod_cast congrArg (fun z : ℤ => (z : ℚ)) this
  refine ⟨by rw [hlen]; omega, hform, ?_, ?_, ?_⟩
  · rw [hform 0 (by omega)]
    simp
  · rw [hform ((xValuesOf mn mx n).length - 1) (by omega)]
    rw [hlen]
    have hsub : ((n.toNat - 1 : ℕ) : ℚ) = (n : ℚ) - 1 := by
      rw [Nat.cast_sub (by omega)]
      rw [hcastn]
      norm_num
    rw [hsub]
    have hne : (n : ℚ) - 1 ≠ 0 := by
      have : (2 : ℚ) ≤ (n : ℚ) := by exact_mod_cast h2
      intro hz
      nlinarith
    field_simp
  · intro i hi
    rw [hform (i + 1) hi, hform i (by omega)]
    push_cast
    ring

/-- Witness for C1 at minX 0, maxX 1, sampleCount 5: the hypotheses hold
and the last sampled point is 1. -/
theorem sampler_produces_evenly_spaced_points_witness :
    ((0 : ℚ) < 1 ∧ (2 : ℤ) ≤ 5 ∧ (5 : ℤ) ≤ 1000)
    ∧ (xValuesOf 0 1 5).getD ((xValuesOf 0 1 5).length - 1) 0 = 1 :=
  ⟨⟨by norm_num, by norm_num, by norm_num⟩,
   (sampler_produces_evenly_spaced_points 0 1 5 (by norm_num) (by norm_num)
     (by norm_num)).2.2.2.1⟩

/-! Claims C3 and C10. -/

/-- The closure mathjs produces for the text 1/x: finite except at 0,
where JavaScript division yields Infinity, a non-finite number. -/
def oneOverX : ℚ → Except String JSValue :=
  fun q => if q = 0 then .ok .nonFiniteNum else .ok (.finiteNum (1 / q))

/-- The closure mathjs produces for the text x < 5: evaluation succeeds
and returns a boolean, which is not a number. -/
def ltFive : ℚ → Except String JSValue :=
  fun _ => .ok .other

/-- C3: if evaluation at a sampled point succeeds with a numeric but
non-finite value, the sample is recorded as absent (none, a gap) rather
than as an error, and sampling of the remaining points continues: the
outcome on the whole list is the outcome on the earlier points, the gap,
then the outcome on the later points. -/
theorem nonfinite_value_recorded_as_gap (f : ℚ → Except String JSValue)
    (t : String) (pre post : List ℚ) (x : ℚ)
    (h : f x = .ok .nonFiniteNum) :
    sampleYValues f t (pre ++ x :: post)
      = (sampleYValues f t pre).bind
          (fun ys => (sampleYValues f t post).map (fun zs => ys ++ none :: zs)) := by
  rw [sampleYValues_append]
  cases hpre : sampleYValues f t pre with
  | error e => simp [Except.bind]
  | ok ys =>
    simp only [Except.bind]
    cases hpost : sampleYValues f t post with
    | error e => simp [sampleYValues, h, hpost, Except.map]
    | ok zs => simp [sampleYValues, h, hpost, Except.map]

/-- Witness for C3: the 1/x closure at 0 yields a non-finite number and
the sample list around it carries the gap. -/
theorem nonfinite_value_recorded_as_gap_witness :
    oneOverX 0 = .ok .nonFiniteNum
    ∧ sampleYValues oneOverX "1/x" ([1] ++ 0 :: [2])
        = (sampleYValues oneOverX "1/x" [1]).bind
            (fun ys => (sampleYValues oneOverX "1/x" [2]).map
              (fun zs => ys ++ none :: zs)) :=
  ⟨by simp [oneOverX],
   nonfinite_value_recorded_as_gap oneOverX "1/x" [1] [2] 0 (by simp [oneOverX])⟩

/-- C10: if evaluation at a sampled point succeeds with a value that is
not a number at all, the sample is recorded as absent (none, a gap)
exactly like a non-finite number, rather than raising an error or being
plotted, and sampling of the remaining points continues. -/
theorem nonnumber_value_recorded_as_gap (f : ℚ → Except String JSValue)
    (t : String) (pre post : List ℚ) (x : ℚ)
    (h : f x = .ok .other) :
    sampleYValues f t (pre ++ x :: post)
      = (sampleYValues f t pre).bind
          (fun ys => (sampleYValues f t post).map (fun zs => ys ++ none :: zs)) := by
  rw [sampleYValues_append]
  cases hpre : sampleYValues f t pre with
  | error e => simp [Except.bind]
  | ok ys =>
    simp only [Except.bind]
    cases hpost : sampleYValues f t post with
    | error e => simp [sampleYValues, h, hpost, Except.map]
    | ok zs => simp [sampleYValues, h, hpost, Except.map]

/-- Witness for C10: the boolean-valued closure yields a non-number at 0
and the sample list around it carries the gap. -/
theorem nonnumber_value_recorded_as_gap_witness :
    ltFive 0 = .ok .other
    ∧ sampleYValues ltFive "x < 5" ([1] ++ 0 :: [2])
        = (sampleYValues ltFive "x < 5" [1]).bind
            (fun ys => (sampleYValues ltFive "x < 5" [2]).map
              (fun zs => ys ++ none :: zs)) :=
  ⟨rfl, nonnumber_value_recorded_as_gap ltFive "x < 5" [1] [2] 0 rfl⟩

/-! Claim C2. -/

/-- C2: if, for a validated input, compiling some non-blank expression
throws, or evaluating some compiled non-blank expression at some sampled
domain point throws, then the whole plot request is aborted: the chart is
neither created nor replaced, and the surfaced error is a parse error
naming a non-blank expression of the list or an eval error naming a
non-blank expression together with a sampled domain value. -/
theorem plot_aborts_on_parse_or_eval_failure (math : MathEngine)
    (entries : List ExprEntry) (mn mx : ℚ) (n : ℤ) (ui : UIState)
    (hmn : mn < mx) (h2 : 2 ≤ n) (h3 : n ≤ 1000)
    (hfail : ∃ en ∈ entries, blankText en.value = false ∧
      ((∃ msg, math.compile en.value = .error msg)
       ∨ (∃ c, math.compile en.value = .ok c
           ∧ ∃ x ∈ xValuesOf mn mx n, ∃ msg, c x = .error msg))) :
    (plotGraph math entries (some mn) (some mx) n ui).chartInstance
        = ui.chartInstance
    ∧ ∃ err, (plotGraph math entries (some mn) (some mx) n ui).errorMessage
          = some err
      ∧ ((∃ t msg, err = .parseError t msg ∧ t ∈ nonBlankTexts entries
            ∧ math.compile t = .error msg)
         ∨ (∃ t x msg, err = .evalError t x msg ∧ t ∈ nonBlankTexts entries
             ∧ x ∈ xValuesOf mn mx n
             ∧ ∃ c, math.compile t = .ok c ∧ c x = .error msg)) := by
  have hne : ∃ en ∈ entries, blankText en.value = false := by
    obtain ⟨en, hm, hb, _⟩ := hfail
    exact ⟨en, hm, hb⟩
  obtain ⟨e, he⟩ := buildDatasets_error_of_fail math (xValuesOf mn mx n) entries 0 hfail
  have hres : plotGraph math entries (some mn) (some mx) n ui
      = { ui with errorMessage := some e, loading := false } := by
    rw [plotGraph_eq_build math entries mn mx n ui hne hmn h2 h3]
    simp only [he]
  rw [hres]
  exact ⟨rfl, e, rfl, buildDatasets_error_shape math _ entries 0 e he⟩

/-- Witness for C2: the truncated expression text fails to compile in the
demo engine, and the plot request with it is aborted with the chart left
untouched. -/
theorem plot_aborts_on_parse_or_eval_failure_witness :
    ((0 : ℚ) < 1
      ∧ demoEngine.compile "2+" = .error "Unexpected end of expression"
      ∧ blankText "2+" = false)
    ∧ ((plotGraph demoEngine [⟨1, "2+"⟩] (some 0) (some 1) 2 uiInit).chartInstance
          = uiInit.chartInstance
        ∧ ∃ err,
            (plotGraph demoEngine [⟨1, "2+"⟩] (some 0) (some 1) 2 uiInit).errorMessage
              = some err
            ∧ ((∃ t msg, err = .parseError t msg
                  ∧ t ∈ nonBlankTexts [⟨1, "2+"⟩]
                  ∧ demoEngine.compile t = .error msg)
               ∨ (∃ t x msg, err = .evalError t x msg
                   ∧ t ∈ nonBlankTexts [⟨1, "2+"⟩]
                   ∧ x ∈ xValuesOf 0 1 2
                   ∧ ∃ c, demoEngine.compile t = .ok c
                       ∧ c x = .error msg))) :=
  ⟨⟨by norm_num, rfl, by decide⟩,
   plot_aborts_on_parse_or_eval_failure demoEngine [⟨1, "2+"⟩] 0 1 2 uiInit
     (by norm_num) (by decide) (by decide)
     ⟨⟨1, "2+"⟩, by simp, by decide,
      Or.inl ⟨"Unexpected end of expression", rfl⟩⟩⟩

/-! Claim C4. -/

/-- C4: whenever a plot request fails (some error is surfaced), the
previously rendered chart is left untouched, except in the
noValidExpressions case, in which the existing chart is destroyed and
cleared. -/
theorem chart_untouched_on_error_except_no_valid (math : MathEngine)
    (entries : List ExprEntry) (minX maxX : Option ℚ) (n : ℤ) (ui : UIState)
    (err : PlotError)
    (h : (plotGraph math entries minX maxX n ui).errorMessage = some err) :
    (err ≠ .noValidExpressions →
      (plotGraph math entries minX maxX n ui).chartInstance = ui.chartInstance)
    ∧ (err = .noValidExpressions →
      (plotGraph math entries minX maxX n ui).chartInstance = none) := by
  cases hall : entries.all (fun expr => blankText expr.value) with
  | true =>
    rw [plotGraph_allBlank math entries minX maxX n ui hall] at h ⊢
    injection h with h2
    refine ⟨fun _ => rfl, fun hv => ?_⟩
    rw [← h2] at hv
    cases hv
  | false =>
    cases minX with
    | none =>
      rw [plotGraph_minNone math entries maxX n ui hall] at h ⊢
      injection h with h2
      refine ⟨fun _ => rfl, fun hv => ?_⟩
      rw [← h2] at hv
      cases hv
    | some a =>
      cases maxX with
      | none =>
        rw [plotGraph_maxNone math entries a n ui hall] at h ⊢
        injection h with h2
        refine ⟨fun _ => rfl, fun hv => ?_⟩
        rw [← h2] at hv
        cases hv
      | some b =>
        by_cases hge : a ≥ b
        · rw [plotGraph_inverted math entries a b n ui hall hge] at h ⊢
          injection h with h2
          refine ⟨fun _ => rfl, fun hv => ?_⟩
          rw [← h2] at hv
          cases hv
        · by_cases hcount : n < 2 ∨ n > 1000
          · rw [plotGraph_badCount math entries a b n ui hall (not_le.mp hge) hcount]
              at h ⊢
            injection h with h2
            refine ⟨fun _ => rfl, fun hv => ?_⟩
            rw [← h2] at hv
            cases hv
          · have heqb := plotGraph_eq_build math entries a b n ui
              (exists_nonblank_of_all_false entries hall) (not_le.mp hge)
              (by omega) (by omega)
            cases hds : buildDatasets math (xValuesOf a b n) entries 0 with
            | error e =>
              have hres : plotGraph math entries (some a) (some b) n ui
                  = { ui with errorMessage := some e, loading := false } := by
                rw [heqb]
                simp only [hds]
              rw [hres] at h ⊢
              injection h with h2
              refine ⟨fun _ => rfl, fun hv => ?_⟩
              rw [← h2] at hv
              rcases buildDatasets_error_shape math _ entries 0 e hds with
                ⟨t, msg, hshape, _, _⟩ | ⟨t, x, msg, hshape, _, _, _⟩ <;>
                (rw [hshape] at hv; cases hv)
            | ok ds =>
              cases hemp : ds.isEmpty with
              | true =>
                have hres : plotGraph math entries (some a) (some b) n ui
                    = { ui with errorMessage := some PlotError.noValidExpressions
                              , chartInstance := none, loading := false } := by
                  rw [heqb]
                  simp only [hds, hemp, if_true]
                rw [hres] at h ⊢
                injection h with h2
                refine ⟨fun hne => absurd h2.symm hne, fun _ => rfl⟩
              | false =>
                have hres : plotGraph math entries (some a) (some b) n ui
                    = { ui with errorMessage := none
                              , chartInstance :=
                                  some { labels := xValuesOf a b n, datasets := ds }
                              , loading := false } := by
                  rw [heqb]
                  simp only [hds, hemp, Bool.false_eq_true, if_false]
                rw [hres] at h
                cases h

/-- Witness for C4: a plot request failing the range check leaves the
chart untouched. -/
theorem chart_untouched_on_error_except_no_valid_witness :
    ((plotGraph demoEngine [⟨1, "x"⟩] none (some 1) 5 uiInit).errorMessage
        = some PlotError.rangeError)
    ∧ ((PlotError.rangeError ≠ PlotError.noValidExpressions →
          (plotGraph demoEngine [⟨1, "x"⟩] none (some 1) 5 uiInit).chartInstance
            = uiInit.chartInstance)
        ∧ (PlotError.rangeError = PlotError.noValidExpressions →
          (plotGraph demoEngine [⟨1, "x"⟩] none (some 1) 5 uiInit).chartInstance
            = none)) :=
  ⟨by simp [plotGraph, blankText],
   chart_untouched_on_error_except_no_valid demoEngine [⟨1, "x"⟩] none (some 1) 5
     uiInit PlotError.rangeError (by simp [plotGraph, blankText])⟩

/-! Claim C5. -/

/-- Counterexample to C5 as stated: with every expression blank and the
minX bound missing, validation fails with the empty-input error, not with
the range error, because the all-blank check on line 114 runs before the
range check on line 118. -/
theorem range_error_preempted_by_empty_input_cex :
    (plotGraph demoEngine [⟨1, ""⟩] none (some 1) 5 uiInit).errorMessage
        = some PlotError.emptyInput
    ∧ PlotError.emptyInput ≠ PlotError.rangeError := by
  constructor
  · simp [plotGraph, blankText]
  · intro h
    cases h

/-- C5 amended: provided some expression entry is non-blank (the
empty-input check on line 114 runs first), every input where minX or maxX
is missing or where minX is at least maxX fails with the range error; the
chart and the loading flag are untouched and sampling never happens (the
result does not mention the engine). -/
theorem range_validation_after_empty_check (math : MathEngine)
    (entries : List ExprEntry) (minX maxX : Option ℚ) (n : ℤ) (ui : UIState)
    (hne : ∃ en ∈ entries, blankText en.value = false)
    (hbad : minX = none ∨ maxX = none
      ∨ ∃ a b, minX = some a ∧ maxX = some b ∧ a ≥ b) :
    plotGraph math entries minX maxX n ui
      = { ui with errorMessage := some .rangeError } := by
  have hall := allBlank_eq_false entries hne
  rcases hbad with h1 | h1 | ⟨a, b, ha, hb, hge⟩
  · subst h1
    exact plotGraph_minNone math entries maxX n ui hall
  · subst h1
    cases minX with
    | none => exact plotGraph_minNone math entries none n ui hall
    | some a => exact plotGraph_maxNone math entries a n ui hall
  · subst ha
    subst hb
    exact plotGraph_inverted math entries a b n ui hall hge

/-- Witness for the amended C5: one non-blank entry and a missing minX
yield exactly the range error. -/
theorem range_validation_after_empty_check_witness :
    (∃ en ∈ [ExprEntry.mk 1 "x"], blankText en.value = false)
    ∧ plotGraph demoEngine [⟨1, "x"⟩] none (some 1) 5 uiInit
        = { uiInit with errorMessage := some .rangeError } :=
  ⟨⟨⟨1, "x"⟩, by simp, by decide⟩,
   range_validation_after_empty_check demoEngine [⟨1, "x"⟩] none (some 1) 5 uiInit
     ⟨⟨1, "x"⟩, by simp, by decide⟩ (Or.inl rfl)⟩

/-! Claim C6. -/

/-- Counterexample to C6 as stated: with sampleCount 1 (outside 2..1000)
but a missing minX bound, validation fails with the range error, not the
sample-count error, because the range check on line 118 runs before the
count check on line 122. -/
theorem sample_count_error_preempted_by_range_cex :
    (plotGraph demoEngine [⟨1, "x"⟩] none (some 1) 1 uiInit).errorMessage
        = some PlotError.rangeError
    ∧ PlotError.rangeError ≠ PlotError.sampleCountError := by
  constructor
  · simp [plotGraph, blankText]
  · intro h
    cases h

/-- C6 amended: provided some expression entry is non-blank and the
bounds are present with minX < maxX (the earlier checks pass), a
sampleCount outside 2..1000 fails with the sample-count error before any
sampling (chart and loading untouched, engine never consulted), and a
sampleCount inside 2..1000 never surfaces the sample-count error. -/
theorem sample_count_validation_after_prior_checks (math : MathEngine)
    (entries : List ExprEntry) (mn mx : ℚ) (n : ℤ) (ui : UIState)
    (hne : ∃ en ∈ entries, blankText en.value = false)
    (hlt : mn < mx) :
    ((n < 2 ∨ n > 1000) →
      plotGraph math entries (some mn) (some mx) n ui
        = { ui with errorMessage := some .sampleCountError })
    ∧ (2 ≤ n → n ≤ 1000 →
      (plotGraph math entries (some mn) (some mx) n ui).errorMessage
        ≠ some .sampleCountError) := by
  have hall := allBlank_eq_false entries hne
  constructor
  · intro hcount
    exact plotGraph_badCount math entries mn mx n ui hall hlt hcount
  · intro h2 h3 hcontra
    have heqb := plotGraph_eq_build math entries mn mx n ui hne hlt h2 h3
    cases hds : buildDatasets math (xValuesOf mn mx n) entries 0 with
    | error e =>
      have hres : plotGraph math entries (some mn) (some mx) n ui
          = { ui with errorMessage := some e, loading := false } := by
        rw [heqb]
        simp only [hds]
      rw [hres] at hcontra
      injection hcontra with h4
      rcases buildDatasets_error_shape math _ entries 0 e hds with
        ⟨t, msg, hs, _, _⟩ | ⟨t, x, msg, hs, _, _, _⟩ <;> (rw [h4] at hs; cases hs)
    | ok ds =>
      cases hemp : ds.isEmpty with
      | true =>
        have hres : plotGraph math entries (some mn) (some mx) n ui
            = { ui with errorMessage := some PlotError.noValidExpressions
                      , chartInstance := none, loading := false } := by
          rw [heqb]
          simp only [hds, hemp, if_true]
        rw [hres] at hcontra
        injection hcontra with h4
        cases h4
      | false =>
        have hres : plotGraph math entries (some mn) (some mx) n ui
            = { ui with errorMessage := none
                      , chartInstance :=
                          some { labels := xValuesOf mn mx n, datasets := ds }
                      , loading := false } := by
          rw [heqb]
          simp only [hds, hemp, Bool.false_eq_true, if_false]
        rw [hres] at hcontra
        cases hcontra

/-- Witness for the amended C6: one non-blank entry, bounds 0 < 1 and
sampleCount 1 yield exactly the sample-count error. -/
theorem sample_count_validation_after_prior_checks_witness :
    ((∃ en ∈ [ExprEntry.mk 1 "x"], blankText en.value = false)
      ∧ (0 : ℚ) < 1 ∧ ((1 : ℤ) < 2 ∨ (1 : ℤ) > 1000))
    ∧ plotGraph demoEngine [⟨1, "x"⟩] (some 0) (some 1) 1 uiInit
        = { uiInit with errorMessage := some .sampleCountError } :=
  ⟨⟨⟨⟨1, "x"⟩, by simp, by decide⟩, by norm_num, Or.inl (by decide)⟩,
   (sample_count_validation_after_prior_checks demoEngine [⟨1, "x"⟩] 0 1 1 uiInit
      ⟨⟨1, "x"⟩, by simp, by decide⟩ (by norm_num)).1 (Or.inl (by decide))⟩

/-! Claim C7. -/

/-- Counterexample to C7 as stated: with a blank first row and the
expression x in the second row, the only plotted curve — position 0 among
the plotted curves — receives the palette color of index 1, its position
in the full submitted list; and a second request whose ordered non-blank
expressions are the same (the single row x) receives a different color. -/
theorem color_indexed_by_full_list_cex :
    ((plotGraph demoEngine [⟨1, ""⟩, ⟨2, "x"⟩] (some 0) (some 1) 2
        uiInit).chartInstance).map (fun ch => ch.datasets.map Dataset.borderColor)
      = some [getLineColor 1]
    ∧ ((plotGraph demoEngine [⟨1, "x"⟩] (some 0) (some 1) 2
        uiInit).chartInstance).map (fun ch => ch.datasets.map Dataset.borderColor)
      = some [getLineColor 0]
    ∧ getLineColor 1 ≠ getLineColor 0 := by
  refine ⟨?_, ?_, by decide⟩
  · simp [plotGraph, blankText, demoEngine, xValuesOf, buildDatasets, sampleYValues,
          List.range_succ, getLineColor, lineColors]
    norm_num
  · simp [plotGraph, blankText, demoEngine, xValuesOf, buildDatasets, sampleYValues,
          List.range_succ, getLineColor, lineColors]
    norm_num

/-- C7 amended: the series color cycles the fixed palette indexed by the
expression's position in the full submitted list (blank rows included,
not the position among plotted curves and not the stable id): on every
successful plot the dataset colors are exactly getLineColor of the
non-blank positions counted in the full list, so two requests with
identical ordered full lists color their curves identically. -/
theorem colors_cycle_positions_in_full_list (math : MathEngine)
    (entries : List ExprEntry) (minX maxX : Option ℚ) (n : ℤ) (ui : UIState)
    (h : (plotGraph math entries minX maxX n ui).errorMessage = none) :
    ∃ ch, (plotGraph math entries minX maxX n ui).chartInstance = some ch
      ∧ ch.datasets.map Dataset.borderColor
          = (nonBlankPositions entries 0).map getLineColor := by
  obtain ⟨a, b, ds, ha, hb, hds, hne2, hchart⟩ :=
    plotGraph_success_inv math entries minX maxX n ui h
  exact ⟨_, hchart, buildDatasets_colors math _ entries 0 ds hds⟩

/-- Witness for the amended C7 on the blank-then-x list. -/
theorem colors_cycle_positions_in_full_list_witness :
    ((plotGraph demoEngine [⟨1, ""⟩, ⟨2, "x"⟩] (some 0) (some 1) 2
        uiInit).errorMessage = none)
    ∧ ∃ ch, (plotGraph demoEngine [⟨1, ""⟩, ⟨2, "x"⟩] (some 0) (some 1) 2
          uiInit).chartInstance = some ch
        ∧ ch.datasets.map Dataset.borderColor
            = (nonBlankPositions [⟨1, ""⟩, ⟨2, "x"⟩] 0).map getLineColor := by
  have hm : (plotGraph demoEngine [⟨1, ""⟩, ⟨2, "x"⟩] (some 0) (some 1) 2
      uiInit).errorMessage = none := by
    simp [plotGraph, blankText, demoEngine, xValuesOf, buildDatasets, sampleYValues,
          List.range_succ]
    norm_num
  exact ⟨hm, colors_cycle_positions_in_full_list demoEngine [⟨1, ""⟩, ⟨2, "x"⟩]
    (some 0) (some 1) 2 uiInit hm⟩

/-! Claim C8. -/

/-- The reading of the point-marker rule in the words of the
specification: the text contains the evaluation variable.  The evaluation
variable is x — the scope key handed to evaluate on line 154 — so this
test is containment of the lowercase character x. -/
def specContainsEvalVariable (s : String) : Bool :=
  s.data.any (fun c => c = 'x')

/-- Counterexample to C8 as stated: the mathjs expression consisting of
the constant 2 followed by a comment containing a capital X does not
contain the evaluation variable x, yet its plotted curve gets point
radius 0 (invisible markers) instead of a positive radius, because the
regular expression on line 168 also matches the uppercase X. -/
theorem point_marker_capital_x_cex :
    ((plotGraph demoEngine [⟨1, "2 # X"⟩] (some 0) (some 1) 2
        uiInit).chartInstance).map (fun ch => ch.datasets.map Dataset.pointRadius)
      = some [0]
    ∧ specContainsEvalVariable "2 # X" = false := by
  refine ⟨?_, by decide⟩
  simp [plotGraph, blankText, demoEngine, xValuesOf, buildDatasets, sampleYValues,
        List.range_succ, matchesXChar]
  norm_num

/-- C8 amended: a plotted curve gets invisible point markers (radius 0)
exactly when its text contains the letter x in either case (the character
class of the regular expression on line 168), and visible markers
(radius 3) otherwise: on every successful plot the dataset radii are
exactly this function of the non-blank texts. -/
theorem point_markers_by_x_character (math : MathEngine)
    (entries : List ExprEntry) (minX maxX : Option ℚ) (n : ℤ) (ui : UIState)
    (h : (plotGraph math entries minX maxX n ui).errorMessage = none) :
    ∃ ch, (plotGraph math entries minX maxX n ui).chartInstance = some ch
      ∧ ch.datasets.map Dataset.pointRadius
          = (nonBlankTexts entries).map
              (fun t => if matchesXChar t then (0 : ℚ) else 3) := by
  obtain ⟨a, b, ds, ha, hb, hds, hne2, hchart⟩ :=
    plotGraph_success_inv math entries minX maxX n ui h
  exact ⟨_, hchart, buildDatasets_radii math _ entries 0 ds hds⟩

/-- Witness for the amended C8 on a list with the identity curve x and
the constant curve 5. -/
theorem point_markers_by_x_character_witness :
    ((plotGraph demoEngine [⟨1, "x"⟩, ⟨2, "5"⟩] (some 0) (some 1) 2
        uiInit).errorMessage = none)
    ∧ ∃ ch, (plotGraph demoEngine [⟨1, "x"⟩, ⟨2, "5"⟩] (some 0) (some 1) 2
          uiInit).chartInstance = some ch
        ∧ ch.datasets.map Dataset.pointRadius
            = (nonBlankTexts [⟨1, "x"⟩, ⟨2, "5"⟩]).map
                (fun t => if matchesXChar t then (0 : ℚ) else 3) := by
  have hm : (plotGraph demoEngine [⟨1, "x"⟩, ⟨2, "5"⟩] (some 0) (some 1) 2
      uiInit).errorMessage = none := by
    simp [plotGraph, blankText, demoEngine, xValuesOf, buildDatasets, sampleYValues,
          List.range_succ]
    norm_num
  exact ⟨hm, point_markers_by_x_character demoEngine [⟨1, "x"⟩, ⟨2, "5"⟩]
    (some 0) (some 1) 2 uiInit hm⟩

/-! Claim C9. -/

/-- C9: a submitted list containing both blank and non-blank rows passes
validation, and — when the domain parameters are valid and every
non-blank text compiles and evaluates without throwing — exactly the
non-blank rows produce series, in input order (witnessed by the dataset
labels); a list where every row is blank fails with the empty-input error
and leaves the chart untouched. -/
theorem blank_entries_skipped_nonblank_plotted :
    (∀ (math : MathEngine) (entries : List ExprEntry) (mn mx : ℚ) (n : ℤ)
        (ui : UIState),
      (∃ en ∈ entries, blankText en.value = true) →
      (∃ en ∈ entries, blankText en.value = false) →
      mn < mx → 2 ≤ n → n ≤ 1000 →
      (∀ en ∈ entries, blankText en.value = false →
        ∃ c, math.compile en.value = .ok c
          ∧ ∀ x ∈ xValuesOf mn mx n, ∃ v, c x = .ok v) →
      ∃ ch, (plotGraph math entries (some mn) (some mx) n ui).chartInstance
            = some ch
        ∧ ch.datasets.map Dataset.label
            = (nonBlankTexts entries).map (fun t => "y = " ++ t))
    ∧ (∀ (math : MathEngine) (entries : List ExprEntry)
        (minX maxX : Option ℚ) (n : ℤ) (ui : UIState),
      (∀ en ∈ entries, blankText en.value = true) →
      plotGraph math entries minX maxX n ui
        = { ui with errorMessage := some .emptyInput }) := by
  constructor
  · intro math entries mn mx n ui hblank hnb hlt h2 h3 hsound
    obtain ⟨ds, hds⟩ :=
      buildDatasets_ok_of_sound math (xValuesOf mn mx n) entries 0 hsound
    have hlabels := buildDatasets_labels math _ entries 0 ds hds
    have hmemtexts : ∃ t, t ∈ nonBlankTexts entries := by
      obtain ⟨en, hmem, hb⟩ := hnb
      refine ⟨en.value, ?_⟩
      simp only [nonBlankTexts, List.map_eq_map, List.mem_map, List.mem_filter]
      exact ⟨en, ⟨hmem, by simp [hb]⟩, rfl⟩
    have hne2 : ds ≠ [] := by
      intro hnil
      rw [hnil] at hlabels
      obtain ⟨t, ht⟩ := hmemtexts
      have : "y = " ++ t ∈ (nonBlankTexts entries).map (fun t => "y = " ++ t) :=
        List.mem_map_of_mem _ ht
      rw [← hlabels] at this
      simp at this
    have hemp : ds.isEmpty = false := by
      cases ds with
      | nil => exact absurd rfl hne2
      | cons d ds2 => rfl
    have heqb := plotGraph_eq_build math entries mn mx n ui hnb hlt h2 h3
    have hres : plotGraph math entries (some mn) (some mx) n ui
        = { ui with errorMessage := none
                  , chartInstance :=
                      some { labels := xValuesOf mn mx n, datasets := ds }
                  , loading := false } := by
      rw [heqb]
      simp only [hds, hemp, Bool.false_eq_true, if_false]
    rw [hres]
    exact ⟨_, rfl, hlabels⟩
  · intro math entries minX maxX n ui hall
    apply plotGraph_allBlank
    rw [List.all_eq_true]
    exact hall

/-- Witness for C9: the list with x and a blank row plots exactly one
series labelled y = x, and the all-blank single row fails with the
empty-input error. -/
theorem blank_entries_skipped_nonblank_plotted_witness :
    (∃ ch, (plotGraph demoEngine [⟨1, "x"⟩, ⟨2, ""⟩] (some 0) (some 1) 2
          uiInit).chartInstance = some ch
      ∧ ch.datasets.map Dataset.label
          = (nonBlankTexts [⟨1, "x"⟩, ⟨2, ""⟩]).map (fun t => "y = " ++ t))
    ∧ plotGraph demoEngine [⟨1, ""⟩] none (some 1) 2 uiInit
        = { uiInit with errorMessage := some .emptyInput } := by
  constructor
  · refine blank_entries_skipped_nonblank_plotted.1 demoEngine
      [⟨1, "x"⟩, ⟨2, ""⟩] 0 1 2 uiInit
      ⟨⟨2, ""⟩, by simp, by decide⟩ ⟨⟨1, "x"⟩, by simp, by decide⟩
      (by norm_num) (by decide) (by decide) ?_
    intro en hmem hb
    rcases List.mem_cons.mp hmem with hh | hh
    · subst hh
      exact ⟨fun q => .ok (.finiteNum q), rfl, fun x _ => ⟨.finiteNum x, rfl⟩⟩
    · rcases List.mem_singleton.mp hh with hh2
      subst hh2
      exact absurd hb (by decide)
  · exact blank_entries_skipped_nonblank_plotted.2 demoEngine [⟨1, ""⟩]
      none (some 1) 2 uiInit
      (by
        intro en hmem
        rcases List.mem_singleton.mp hmem with hh
        subst hh
        decide)

end MathPlotter
